import Mathlib

/-!
nnstreamer: the "flatbuf" tensor_decoder subplugin.

A shallow embedding of `fbd_decode`
(`src/ext/nnstreamer/tensor_decoder/tensordec-flatbuf.cc`, lines 82-163) and
the properties of it that the specification states.

Conventions of the embedding.

* A C pointer argument that may be `NULL` is an `Option`.
* Bytes are natural numbers below 256; C strings are `String`s (the characters
  before the terminating NUL).
* An array read is a list lookup.  A read or write outside the array is
  undefined behaviour in C; the embedding then yields `none`, so the outer
  `Option` of every result says whether the run stays inside the model.
* The FlatBuffers builder is kept at the level of the object tree it is asked
  to build (`Tensor`, `Tensors`).  What `Finish`/`GetBufferPointer` make of the
  tree, the byte layout, belongs to the FlatBuffers library and is the
  parameter `finish` of `fbd_decode`.
* `GstBuffer` and `GstMemory` belong to GStreamer; they are modelled as far as
  `fbd_decode` uses them (see the definitions below).
-/

namespace nnstreamer
namespace flatbuf

/-! ## Data model -/

/-- Modelled from the spec: the element types.  The enumeration is declared in
`tensor_typedef.h`, which is not among the sources; the tags are those of
`GST_TENSOR_TYPE_ALL` (tensor_common.h:41), and `NNS_END` is the value that
stands for an unrecognised type (tensor_common.h:102). -/
inductive tensor_type
  | float32 | float64 | int32 | uint32 | int16 | uint16 | int8 | uint8
  | NNS_END
deriving DecidableEq

/-- Modelled from the spec: the type tag of the FlatBuffers schema
(`nnstreamer_generated.h`, generated, not among the sources).  It lists the
same element types as `tensor_type`. -/
inductive Tensor_type
  | NNS_FLOAT32 | NNS_FLOAT64 | NNS_INT32 | NNS_UINT32
  | NNS_INT16 | NNS_UINT16 | NNS_INT8 | NNS_UINT8
  | NNS_END
deriving DecidableEq

/-- The C cast `(Tensor_type) config->info.info[i].type` (line 121).  The two
enumerations give the same integer to the same element type, so the cast keeps
the tag. -/
def Tensor_type.cast : tensor_type → Tensor_type
  | .float32 => .NNS_FLOAT32
  | .float64 => .NNS_FLOAT64
  | .int32 => .NNS_INT32
  | .uint32 => .NNS_UINT32
  | .int16 => .NNS_INT16
  | .uint16 => .NNS_UINT16
  | .int8 => .NNS_INT8
  | .uint8 => .NNS_UINT8
  | .NNS_END => .NNS_END

/-- Modelled from the spec: the rank limit, the number of slots of a
`tensor_dim`.  The macro is defined in `tensor_typedef.h`, which is not among
the sources; the spec gives 4, and so do the capability strings
(tensor_common.h:37, 46-49: rank in [1, 4], dim1 .. dim4). -/
def NNS_TENSOR_RANK_LIMIT : Nat := 4

/-- Upper bound of the tensor count, `GST_TENSOR_TENSORS_RANGE`
(tensor_common.h:40). -/
def GST_TENSOR_TENSORS_MAX : Nat := 65535

/-- Upper bound of one dimension, `GST_TENSOR_DIM_RANGE` (tensor_common.h:38);
the lower bound is 1. -/
def GST_TENSOR_DIM_MAX : Nat := 65535

/-- One tensor descriptor: `config->info.info[i]` with the three fields that
`fbd_decode` reads.  `name` is a `char *` (`none` is `NULL`), `dimension` is the
`tensor_dim` array. -/
structure GstTensorInfo where
  name : Option String
  type : tensor_type
  dimension : List Nat
deriving DecidableEq

/-- The descriptor array with its count: `config->info`. -/
structure GstTensorsInfo where
  num_tensors : Nat
  info : List GstTensorInfo
deriving DecidableEq

/-- The frame metadata: `GstTensorsConfig`. -/
structure GstTensorsConfig where
  info : GstTensorsInfo
  rate_n : Int
  rate_d : Int
deriving DecidableEq

/-- One raw tensor buffer: `input[i]`, a pointer to `data` and a byte count
`size`.  `data` is the memory the pointer refers to. -/
structure GstTensorMemory where
  data : List Nat
  size : Nat
deriving DecidableEq

/-! ## The FlatBuffers object tree -/

/-- The `frame_rate` struct of the schema. -/
structure frame_rate where
  rate_n : Int
  rate_d : Int
deriving DecidableEq

/-- The `Tensor` table of the schema, with the four fields `CreateTensor` is
given (line 128). -/
structure Tensor where
  name : String
  type : Tensor_type
  dimension : List Nat
  data : List Nat
deriving DecidableEq

/-- The `Tensors` root table, with the three fields `CreateTensors` is given
(line 132).  `num_tensors` is a `guint` and the schema field an `int`; every
count that the descriptor array can hold fits both, so the number is kept as
it is. -/
structure Tensors where
  num_tensor : Nat
  fr : frame_rate
  tensor : List Tensor
deriving DecidableEq

/-- The call `builder.CreateVector (ptr, len)`: a vector of the `len` elements
starting at `ptr`; reading past the end of the array leaves the model. -/
def CreateVector (v : List Nat) (len : Nat) : Option (List Nat) :=
  if len ≤ v.length then some (v.take len) else none

/-- The call `builder.CreateString (str)`. -/
def CreateString (str : String) : String := str

/-- Lines 125-126: `CreateUninitializedVector (size, &tmp_buf)` followed by
`memcpy (tmp_buf, input[i].data, input[i].size)`: a byte vector of length
`size` filled from `data`; reading past the end of `data` leaves the
model. -/
def CreateInputVector (m : GstTensorMemory) : Option (List Nat) :=
  if m.size ≤ m.data.length then some (m.data.take m.size) else none

/-- The generated constructor `CreateTensor (builder, name, type, dimension, data)`. -/
def CreateTensor (name : String) (type : Tensor_type) (dimension data : List Nat) : Tensor :=
  { name := name, type := type, dimension := dimension, data := data }

/-- The generated constructor `CreateTensors (builder, num_tensor, fr, tensor)`. -/
def CreateTensors (num_tensor : Nat) (fr : frame_rate) (tensor : List Tensor) : Tensors :=
  { num_tensor := num_tensor, fr := fr, tensor := tensor }

/-! ## `fbd_decode`, lines 107-132: building the container -/

/-- The body of the loop (lines 111-128) at index `i`: the tensor record that
is pushed to `tensor_vector`. -/
def fbd_tensor (config : GstTensorsConfig) (input : List GstTensorMemory) (i : Nat) :
    Option Tensor :=
  match config.info.info[i]? with
  | none => none
  | some info =>
    match CreateVector info.dimension NNS_TENSOR_RANK_LIMIT with
    | none => none
    | some dim =>
      let name := info.name
      let tensor_name :=
        match name with
        | none => CreateString ""
        | some s => CreateString s
      let type := Tensor_type.cast info.type
      match input[i]? with
      | none => none
      | some mem =>
        match CreateInputVector mem with
        | none => none
        | some input_vector => some (CreateTensor tensor_name type dim input_vector)

/-- The loop of lines 110-130: `tensor_vector` after the iterations
`0 .. n-1`. -/
def fbd_tensor_vector (config : GstTensorsConfig) (input : List GstTensorMemory) :
    Nat → Option (List Tensor)
  | 0 => some []
  | n + 1 =>
    match fbd_tensor_vector config input n with
    | none => none
    | some tensor_vector =>
      match fbd_tensor config input n with
      | none => none
      | some tensor => some (tensor_vector ++ [tensor])

/-- Lines 107-132: the root table handed to `builder.Finish`. -/
def fbd_container (config : GstTensorsConfig) (input : List GstTensorMemory) :
    Option Tensors :=
  let num_tensors := config.info.num_tensors
  let fr := frame_rate.mk config.rate_n config.rate_d
  match fbd_tensor_vector config input num_tensors with
  | none => none
  | some tensor_vector => some (CreateTensors num_tensors fr tensor_vector)

/-! ## GStreamer buffers, as far as `fbd_decode` uses them -/

/-- The status `fbd_decode` returns. -/
inductive GstFlowReturn
  | GST_FLOW_OK
  | GST_FLOW_ERROR
deriving DecidableEq

/-- A `GstMemory` block.  `data` are the visible bytes (the block's `size` is
`data.length`), `spare` are the allocated bytes behind them (`maxsize` is
`data.length + spare.length`), and `readonly` says that the block cannot be
mapped for writing. -/
structure GstMemory where
  data : List Nat
  spare : List Nat
  readonly : Bool
deriving DecidableEq

/-- A `GstBuffer`: its memory blocks, in order. -/
structure GstBuffer where
  mem : List GstMemory
deriving DecidableEq

/-- The value of `out_mem`: `NULL`, a block that `outbuf` does not hold (a new
allocation), or the block that `outbuf` holds. -/
inductive MemRef
  | null
  | detached (m : GstMemory)
  | attached
deriving DecidableEq

/-- The call `gst_buffer_get_size`: the sum of the sizes of the blocks. -/
def gst_buffer_get_size (buf : GstBuffer) : Nat :=
  (buf.mem.map (fun m => m.data.length)).sum

/-- The bytes of a buffer: the visible bytes of its blocks, in order. -/
def gst_buffer_bytes (buf : GstBuffer) : List Nat :=
  (buf.mem.map (fun m => m.data)).flatten

/-- The call `gst_allocator_alloc (NULL, size, NULL)`: a new writable block of
`size` bytes, or `NULL` when the allocator fails (`allocOk = false`).  The
bytes of the new block are unspecified; they are written as 0 here and
`fbd_decode` overwrites all of them. -/
def gst_allocator_alloc (allocOk : Bool) (size : Nat) : MemRef :=
  if allocOk then .detached { data := List.replicate size 0, spare := [], readonly := false }
  else .null

/-- Moves the border between the visible and the spare bytes of a block so
that `size` bytes are visible. -/
def gst_memory_resize (m : GstMemory) (size : Nat) : GstMemory :=
  { m with data := (m.data ++ m.spare).take size, spare := (m.data ++ m.spare).drop size }

/-- The call `gst_buffer_set_size (buf, size)` on a buffer of one block: the
block is resized when its allocation has room for `size` bytes; otherwise the
call is refused and the buffer stays as it is.  A read-only block stays
read-only.  Buffers of several blocks are outside the model (`none`). -/
def gst_buffer_set_size (buf : GstBuffer) (size : Nat) : Option GstBuffer :=
  match buf.mem with
  | [m] =>
    if size ≤ m.data.length + m.spare.length then some { mem := [gst_memory_resize m size] }
    else some buf
  | _ => none

/-- The call `gst_buffer_get_all_memory`: `NULL` for a buffer without memory,
the block itself for a buffer of one block.  The merge of several blocks is
outside the model (`none`). -/
def gst_buffer_get_all_memory (buf : GstBuffer) : Option MemRef :=
  match buf.mem with
  | [] => some .null
  | [_] => some .attached
  | _ => none

/-- The block `out_mem` refers to. -/
def MemRef.deref (buf : GstBuffer) : MemRef → Option GstMemory
  | .null => none
  | .detached m => some m
  | .attached => buf.mem.head?

/-- The call `gst_memory_map (out_mem, &out_info, GST_MAP_WRITE)`: fails for
`NULL` and for a read-only block. -/
def gst_memory_map (buf : GstBuffer) (out_mem : MemRef) : Bool :=
  match out_mem.deref buf with
  | none => false
  | some m => !m.readonly

/-- Writes `src` at the start of the mapped block (`memcpy (out_info.data, src,
n)` with `n = src.length`).  The mapped region is the whole allocation; a
write past its end leaves the model. -/
def GstMemory.write (m : GstMemory) (src : List Nat) : Option GstMemory :=
  let region := m.data ++ m.spare
  if src.length ≤ region.length then
    let region' := src ++ region.drop src.length
    some { m with data := region'.take m.data.length, spare := region'.drop m.data.length }
  else none

/-- Line 153, `memcpy (out_info.data, builder.GetBufferPointer (), fb_size)`,
through the reference `out_mem`: the write lands in the new block, or in the
block of `outbuf`. -/
def memcpy_out (buf : GstBuffer) (out_mem : MemRef) (src : List Nat) :
    Option (GstBuffer × MemRef) :=
  match out_mem with
  | .null => none
  | .detached m =>
    match m.write src with
    | none => none
    | some m' => some (buf, .detached m')
  | .attached =>
    match buf.mem with
    | m :: rest =>
      match m.write src with
      | none => none
      | some m' => some ({ mem := m' :: rest }, .attached)
    | [] => none

/-- The call `gst_buffer_append_memory (buf, out_mem)`: the block becomes the
last block of the buffer; `NULL` is refused. -/
def gst_buffer_append_memory (buf : GstBuffer) (out_mem : MemRef) : GstBuffer :=
  match out_mem.deref buf with
  | none => buf
  | some m => { mem := buf.mem ++ [m] }

/-! ## `fbd_decode`, lines 136-162: placing the bytes in `outbuf` -/

/-- Lines 138-145: the choice of `out_mem`, with the resize of an undersized
buffer. -/
def fbd_out_mem (allocOk : Bool) (outbuf : GstBuffer) (fb_size : Nat) :
    Option (GstBuffer × MemRef) :=
  if gst_buffer_get_size outbuf = 0 then
    some (outbuf, gst_allocator_alloc allocOk fb_size)
  else
    match (if gst_buffer_get_size outbuf < fb_size then gst_buffer_set_size outbuf fb_size
           else some outbuf) with
    | none => none
    | some outbuf =>
      match gst_buffer_get_all_memory outbuf with
      | none => none
      | some out_mem => some (outbuf, out_mem)

/-- Lines 136-162: `bytes` is the finished FlatBuffers buffer
(`builder.GetBufferPointer ()`, of `builder.GetSize ()` bytes). -/
def fbd_write (allocOk : Bool) (outbuf : GstBuffer) (bytes : List Nat) :
    Option (GstFlowReturn × GstBuffer) :=
  let fb_size := bytes.length
  match fbd_out_mem allocOk outbuf fb_size with
  | none => none
  | some (outbuf, out_mem) =>
    if !gst_memory_map outbuf out_mem then
      some (.GST_FLOW_ERROR, outbuf)
    else
      match memcpy_out outbuf out_mem bytes with
      | none => none
      | some (outbuf, out_mem) =>
        if gst_buffer_get_size outbuf = 0 then
          some (.GST_FLOW_OK, gst_buffer_append_memory outbuf out_mem)
        else
          some (.GST_FLOW_OK, outbuf)

/-- The callback `fbd_decode (pdata, config, input, outbuf)`, lines 82-163.
`finish` is the FlatBuffers serialisation of the root table, `allocOk` says
whether `gst_allocator_alloc` succeeds.  The result is the returned status
and the state of `outbuf` after the call. -/
def fbd_decode (finish : Tensors → List Nat) (allocOk : Bool)
    (config : Option GstTensorsConfig) (input : Option (List GstTensorMemory))
    (outbuf : Option GstBuffer) : Option (GstFlowReturn × Option GstBuffer) :=
  match config, input, outbuf with
  | some config, some input, some outbuf =>
    match fbd_container config input with
    | none => none
    | some tensors =>
      match fbd_write allocOk outbuf (finish tensors) with
      | none => none
      | some (ret, outbuf) => some (ret, some outbuf)
  | _, _, _ => some (.GST_FLOW_ERROR, outbuf)

/-! ## Preconditions -/

/-- The reads of iteration `i` of the loop stay inside the arrays: descriptor
`i` and buffer `i` exist, the descriptor's `dimension` has the
`NNS_TENSOR_RANK_LIMIT` slots, and `data` has the `size` bytes. -/
def tensor_readable (config : GstTensorsConfig) (input : List GstTensorMemory) (i : Nat) :
    Bool :=
  match config.info.info[i]?, input[i]? with
  | some info, some mem =>
    decide (NNS_TENSOR_RANK_LIMIT ≤ info.dimension.length) && decide (mem.size ≤ mem.data.length)
  | _, _ => false

/-- All reads of the loop stay inside the arrays. -/
def frame_readable (config : GstTensorsConfig) (input : List GstTensorMemory) : Prop :=
  ∀ i, i < config.info.num_tensors → tensor_readable config input i = true

/-- A valid frame with matching buffers, as the spec describes it: between 1
and 65535 tensors, one descriptor and one buffer for each, an element type of
the fixed set, a dimension vector of `NNS_TENSOR_RANK_LIMIT` slots, a frame
rate with numerator at least 0 and denominator above 0, and buffers that hold
exactly `size` bytes. -/
def frame_valid (config : GstTensorsConfig) (input : List GstTensorMemory) : Prop :=
  1 ≤ config.info.num_tensors ∧ config.info.num_tensors ≤ GST_TENSOR_TENSORS_MAX ∧
  config.info.info.length = config.info.num_tensors ∧
  input.length = config.info.num_tensors ∧
  (∀ info ∈ config.info.info,
    info.type ≠ tensor_type.NNS_END ∧ info.dimension.length = NNS_TENSOR_RANK_LIMIT) ∧
  (∀ mem ∈ input, mem.data.length = mem.size) ∧
  0 ≤ config.rate_n ∧ 0 < config.rate_d

/-- Modelled from the spec: the invariant of a dimension vector whose declared
rank is `rank`.  The descriptor itself carries no rank; the rank is what the
parser `get_tensor_dimension` returns (tensor_common.h:115-120, only declared
in the sources), and the spec requires of the vector it fills: a rank between
1 and the rank limit, `NNS_TENSOR_RANK_LIMIT` slots, every slot a positive
extent within `GST_TENSOR_DIM_RANGE`, and every slot beyond the rank equal
to 1. -/
def tensor_dim_declared (rank : Nat) (dimension : List Nat) : Prop :=
  1 ≤ rank ∧ rank ≤ NNS_TENSOR_RANK_LIMIT ∧
  dimension.length = NNS_TENSOR_RANK_LIMIT ∧
  (∀ d ∈ dimension, 1 ≤ d ∧ d ≤ GST_TENSOR_DIM_MAX) ∧
  (∀ k, k < NNS_TENSOR_RANK_LIMIT → rank ≤ k → dimension[k]? = some 1)

/-- The name a descriptor has on the wire: lines 116-119 write `""` for
`NULL`. -/
def GstTensorInfo.wire_name (info : GstTensorInfo) : String :=
  match info.name with
  | none => ""
  | some s => s

/-- The bytes of the allocations of a buffer, block by block (visible and
spare bytes). -/
def gst_buffer_storage (buf : GstBuffer) : List (List Nat) :=
  buf.mem.map (fun m => m.data ++ m.spare)

/-! ## Concrete data

A stand-in for the FlatBuffers byte layout, used where `finish` has to be a
concrete function, and the frames and buffers of the examples. -/

/-- Four bytes, least significant first. -/
def le32 (n : Nat) : List Nat :=
  [n % 256, n / 256 % 256, n / 65536 % 256, n / 16777216 % 256]

/-- A plain record layout for one tensor: name, type tag, dimensions and
payload, each variable part behind its length. -/
def finish_tensor (t : Tensor) : List Nat :=
  le32 t.name.length ++ t.name.data.map Char.toNat ++
  le32 (match t.type with
        | .NNS_INT32 => 0 | .NNS_UINT32 => 1 | .NNS_INT16 => 2 | .NNS_UINT16 => 3
        | .NNS_INT8 => 4 | .NNS_UINT8 => 5 | .NNS_FLOAT64 => 6 | .NNS_FLOAT32 => 7
        | .NNS_END => 8) ++
  le32 t.dimension.length ++ (t.dimension.map le32).flatten ++
  le32 t.data.length ++ t.data

/-- A plain record layout for the root table. -/
def finish_plain (c : Tensors) : List Nat :=
  le32 c.num_tensor ++ le32 (c.fr.rate_n % 4294967296).toNat ++
  le32 (c.fr.rate_d % 4294967296).toNat ++
  le32 c.tensor.length ++ (c.tensor.map finish_tensor).flatten

/-- The frame of the spec's scenario: "input", uint8, [3,2,1,1] and "",
float32, [2,1,1,1], at 30/1. -/
def config_scenario : GstTensorsConfig :=
  { info :=
      { num_tensors := 2,
        info :=
          [ { name := some "input", type := .uint8, dimension := [3, 2, 1, 1] },
            { name := some "", type := .float32, dimension := [2, 1, 1, 1] } ] },
    rate_n := 30, rate_d := 1 }

/-- The buffers of the spec's scenario: the bytes 1..6, and the floats 1.0 and
2.0 as 8 bytes. -/
def input_scenario : List GstTensorMemory :=
  [ { data := [1, 2, 3, 4, 5, 6], size := 6 },
    { data := [0, 0, 128, 63, 0, 0, 0, 64], size := 8 } ]

/-- A frame with one unnamed tensor: `name` is `NULL`. -/
def config_absent_name : GstTensorsConfig :=
  { info :=
      { num_tensors := 1,
        info := [ { name := none, type := .uint8, dimension := [1, 1, 1, 1] } ] },
    rate_n := 30, rate_d := 1 }

/-- The same frame with the empty string as name. -/
def config_empty_name : GstTensorsConfig :=
  { info :=
      { num_tensors := 1,
        info := [ { name := some "", type := .uint8, dimension := [1, 1, 1, 1] } ] },
    rate_n := 30, rate_d := 1 }

/-- The one-byte buffer of the two frames above. -/
def input_one_byte : List GstTensorMemory :=
  [ { data := [7], size := 1 } ]

/-- An output buffer without memory. -/
def outbuf_empty : GstBuffer := { mem := [] }

/-- An output buffer of 4 bytes in a read-only block of 64 bytes. -/
def outbuf_readonly : GstBuffer :=
  { mem := [ { data := [9, 9, 9, 9], spare := List.replicate 60 5, readonly := true } ] }

/-- An output buffer of 4 bytes in a writable block of 64 bytes. -/
def outbuf_small : GstBuffer :=
  { mem := [ { data := [9, 9, 9, 9], spare := List.replicate 60 5, readonly := false } ] }

/-- An output buffer of 4 bytes in a writable block of exactly 4 bytes: the
block has no room behind the visible bytes. -/
def outbuf_tight : GstBuffer :=
  { mem := [ { data := [9, 9, 9, 9], spare := [], readonly := false } ] }

/-- An output buffer of 62 bytes in a writable block of 64 bytes. -/
def outbuf_large : GstBuffer :=
  { mem := [ { data := List.replicate 62 9, spare := [5, 5], readonly := false } ] }

/-- The buffer `outbuf_readonly` with 49 visible bytes. -/
def outbuf_readonly_resized : GstBuffer :=
  { mem := [ { data := [9, 9, 9, 9] ++ List.replicate 45 5, spare := List.replicate 15 5,
               readonly := true } ] }

/-! ## The container -/

theorem fbd_tensor_vector_length (config : GstTensorsConfig) (input : List GstTensorMemory) :
    ∀ (n : Nat) (tv : List Tensor), fbd_tensor_vector config input n = some tv → tv.length = n := by
  intro n
  induction n with
  | zero =>
    intro tv h
    simp [fbd_tensor_vector] at h
    simp [← h]
  | succ n ih =>
    intro tv h
    unfold fbd_tensor_vector at h
    cases hv : fbd_tensor_vector config input n with
    | none => simp [hv] at h
    | some tv0 =>
      cases ht : fbd_tensor config input n with
      | none => simp [hv, ht] at h
      | some t =>
        simp [hv, ht] at h
        rw [← h, List.length_append, ih tv0 hv]
        rfl

theorem fbd_tensor_vector_get (config : GstTensorsConfig) (input : List GstTensorMemory) :
    ∀ (n : Nat) (tv : List Tensor), fbd_tensor_vector config input n = some tv →
      ∀ k, k < n → ∃ t, fbd_tensor config input k = some t ∧ tv[k]? = some t := by
  intro n
  induction n with
  | zero => intro tv _ k hk; omega
  | succ n ih =>
    intro tv h k hk
    unfold fbd_tensor_vector at h
    cases hv : fbd_tensor_vector config input n with
    | none => simp [hv] at h
    | some tv0 =>
      cases ht : fbd_tensor config input n with
      | none => simp [hv, ht] at h
      | some t =>
        simp [hv, ht] at h
        have hlen := fbd_tensor_vector_length config input n tv0 hv
        rcases Nat.lt_succ_iff_lt_or_eq.mp hk with hlt | heq
        · obtain ⟨u, hu, hget⟩ := ih tv0 hv k hlt
          refine ⟨u, hu, ?_⟩
          rw [← h, List.getElem?_append_left (by omega)]
          exact hget
        · subst heq
          refine ⟨t, ht, ?_⟩
          rw [← h, List.getElem?_append_right (by omega)]
          simp [hlen]

theorem fbd_tensor_vector_some (config : GstTensorsConfig) (input : List GstTensorMemory) :
    ∀ (n : Nat), (∀ k, k < n → ∃ t, fbd_tensor config input k = some t) →
      ∃ tv, fbd_tensor_vector config input n = some tv := by
  intro n
  induction n with
  | zero => intro _; exact ⟨[], rfl⟩
  | succ n ih =>
    intro h
    obtain ⟨tv0, hv⟩ := ih (fun k hk => h k (Nat.lt_succ_of_lt hk))
    obtain ⟨t, ht⟩ := h n (Nat.lt_succ_self n)
    refine ⟨tv0 ++ [t], ?_⟩
    simp [fbd_tensor_vector, hv, ht]

theorem fbd_tensor_of_readable (config : GstTensorsConfig) (input : List GstTensorMemory)
    (k : Nat) (h : tensor_readable config input k = true) :
    ∃ info mem, config.info.info[k]? = some info ∧ input[k]? = some mem ∧
      NNS_TENSOR_RANK_LIMIT ≤ info.dimension.length ∧ mem.size ≤ mem.data.length ∧
      fbd_tensor config input k =
        some (CreateTensor info.wire_name (Tensor_type.cast info.type)
          (info.dimension.take NNS_TENSOR_RANK_LIMIT) (mem.data.take mem.size)) := by
  unfold tensor_readable at h
  cases hi : config.info.info[k]? with
  | none => simp [hi] at h
  | some info =>
    cases hm : input[k]? with
    | none => simp [hi, hm] at h
    | some mem =>
      simp [hi, hm] at h
      refine ⟨info, mem, rfl, rfl, h.1, h.2, ?_⟩
      unfold fbd_tensor
      simp only [hi, hm, CreateVector, CreateInputVector, h.1, h.2, if_true]
      cases hn : info.name <;> simp [GstTensorInfo.wire_name, hn, CreateString]

theorem fbd_container_spec (config : GstTensorsConfig) (input : List GstTensorMemory)
    (h : frame_readable config input) :
    ∃ c, fbd_container config input = some c ∧
      c.num_tensor = config.info.num_tensors ∧
      c.fr = frame_rate.mk config.rate_n config.rate_d ∧
      c.tensor.length = config.info.num_tensors ∧
      ∀ k, k < config.info.num_tensors →
        ∃ info mem, config.info.info[k]? = some info ∧ input[k]? = some mem ∧
          NNS_TENSOR_RANK_LIMIT ≤ info.dimension.length ∧ mem.size ≤ mem.data.length ∧
          c.tensor[k]? =
            some (CreateTensor info.wire_name (Tensor_type.cast info.type)
              (info.dimension.take NNS_TENSOR_RANK_LIMIT) (mem.data.take mem.size)) := by
  have hall : ∀ k, k < config.info.num_tensors → ∃ t, fbd_tensor config input k = some t := by
    intro k hk
    obtain ⟨info, mem, _, _, _, _, ht⟩ := fbd_tensor_of_readable config input k (h k hk)
    exact ⟨_, ht⟩
  obtain ⟨tv, htv⟩ := fbd_tensor_vector_some config input _ hall
  refine ⟨CreateTensors config.info.num_tensors (frame_rate.mk config.rate_n config.rate_d) tv,
    ?_, rfl, rfl, ?_, ?_⟩
  · simp [fbd_container, htv]
  · exact fbd_tensor_vector_length config input _ tv htv
  · intro k hk
    obtain ⟨info, mem, hi, hm, hd, hs, ht⟩ := fbd_tensor_of_readable config input k (h k hk)
    obtain ⟨t, ht', hget⟩ := fbd_tensor_vector_get config input _ tv htv k hk
    refine ⟨info, mem, hi, hm, hd, hs, ?_⟩
    rw [ht] at ht'
    simp only [CreateTensors]
    rw [hget, ← ht']

theorem frame_readable_of_container (config : GstTensorsConfig) (input : List GstTensorMemory)
    (c : Tensors) (h : fbd_container config input = some c) : frame_readable config input := by
  intro k hk
  unfold fbd_container at h
  cases hv : fbd_tensor_vector config input config.info.num_tensors with
  | none => simp [hv] at h
  | some tv =>
    obtain ⟨t, ht, _⟩ := fbd_tensor_vector_get config input _ tv hv k hk
    unfold fbd_tensor at ht
    unfold tensor_readable
    cases hi : config.info.info[k]? with
    | none => simp [hi] at ht
    | some info =>
      cases hm : input[k]? with
      | none =>
        simp only [hi, hm] at ht
        cases hc : CreateVector info.dimension NNS_TENSOR_RANK_LIMIT <;> simp [hc] at ht
      | some mem =>
        simp only [hi, hm] at ht
        simp only [CreateVector, CreateInputVector] at ht
        by_cases h1 : NNS_TENSOR_RANK_LIMIT ≤ info.dimension.length
        · by_cases h2 : mem.size ≤ mem.data.length
          · simp [h1, h2]
          · simp [h1, h2] at ht
        · simp [h1] at ht


/-! ## The output buffer -/

theorem gst_buffer_bytes_length (buf : GstBuffer) :
    (gst_buffer_bytes buf).length = gst_buffer_get_size buf := by
  simp [gst_buffer_bytes, gst_buffer_get_size, List.length_flatten, Function.comp_def]

theorem gst_buffer_bytes_of_size_zero (buf : GstBuffer) (h : gst_buffer_get_size buf = 0) :
    gst_buffer_bytes buf = [] := by
  apply List.eq_nil_of_length_eq_zero
  rw [gst_buffer_bytes_length, h]

theorem GstMemory.write_eq (m : GstMemory) (src : List Nat)
    (h : src.length ≤ m.data.length + m.spare.length) :
    m.write src = some
      { data := (src ++ (m.data ++ m.spare).drop src.length).take m.data.length,
        spare := (src ++ (m.data ++ m.spare).drop src.length).drop m.data.length,
        readonly := m.readonly } := by
  simp [GstMemory.write, h]

theorem GstMemory.write_none (m : GstMemory) (src : List Nat)
    (h : m.data.length + m.spare.length < src.length) : m.write src = none := by
  have : ¬ src.length ≤ m.data.length + m.spare.length := by omega
  simp [GstMemory.write, this]

/-- With no bytes in `outbuf`: a new block that holds exactly `bytes` is
appended, unless the allocation fails. -/
theorem fbd_write_of_size_zero (allocOk : Bool) (outbuf : GstBuffer) (bytes : List Nat)
    (h : gst_buffer_get_size outbuf = 0) :
    fbd_write allocOk outbuf bytes =
      if allocOk then
        some (.GST_FLOW_OK,
          { mem := outbuf.mem ++ [{ data := bytes, spare := [], readonly := false }] })
      else some (.GST_FLOW_ERROR, outbuf) := by
  cases allocOk with
  | false =>
    simp [fbd_write, fbd_out_mem, h, gst_allocator_alloc, gst_memory_map, MemRef.deref]
  | true =>
    simp [fbd_write, fbd_out_mem, h, gst_allocator_alloc, gst_memory_map, MemRef.deref,
      memcpy_out, GstMemory.write, gst_buffer_append_memory]

/-- A buffer that holds bytes in several blocks is outside the model. -/
theorem fbd_write_blocks (allocOk : Bool) (outbuf : GstBuffer) (bytes : List Nat)
    (ret : GstFlowReturn) (outbuf' : GstBuffer)
    (hsz : gst_buffer_get_size outbuf ≠ 0)
    (h : fbd_write allocOk outbuf bytes = some (ret, outbuf')) :
    ∃ m, outbuf.mem = [m] ∧ m.data ≠ [] := by
  obtain ⟨mem⟩ := outbuf
  match mem with
  | [] => simp [gst_buffer_get_size] at hsz
  | [m] =>
    refine ⟨m, rfl, ?_⟩
    intro hd
    simp [gst_buffer_get_size, hd] at hsz
  | m :: m' :: rest =>
    unfold fbd_write fbd_out_mem at h
    simp only [hsz, if_false] at h
    by_cases hlt : gst_buffer_get_size { mem := m :: m' :: rest } < bytes.length
    · simp [hlt, gst_buffer_set_size] at h
    · simp [hlt, gst_buffer_get_all_memory] at h

theorem overwrite_take (src d s : List Nat) (h : src.length ≤ d.length) :
    (src ++ (d ++ s).drop src.length).take d.length = src ++ d.drop src.length := by
  rw [List.drop_append_of_le_length h, ← List.append_assoc]
  apply List.take_left'
  simp only [List.length_append, List.length_drop]
  omega

theorem overwrite_drop (src d s : List Nat) (h : src.length ≤ d.length) :
    (src ++ (d ++ s).drop src.length).drop d.length = s := by
  rw [List.drop_append_of_le_length h, ← List.append_assoc]
  apply List.drop_left'
  simp only [List.length_append, List.length_drop]
  omega

/-- A write that fits the visible bytes replaces the first bytes and keeps
the rest of the block. -/
theorem GstMemory.write_fit (m : GstMemory) (src : List Nat)
    (h : src.length ≤ m.data.length) :
    m.write src = some
      { data := src ++ m.data.drop src.length, spare := m.spare, readonly := m.readonly } := by
  rw [GstMemory.write_eq m src (by omega), overwrite_take src m.data m.spare h,
    overwrite_drop src m.data m.spare h]

/-- One block with at least `bytes.length` visible bytes. -/
theorem fbd_write_reuse (allocOk : Bool) (m : GstMemory) (bytes : List Nat)
    (hne : m.data ≠ []) (hle : bytes.length ≤ m.data.length) :
    fbd_write allocOk { mem := [m] } bytes =
      if m.readonly then some (.GST_FLOW_ERROR, { mem := [m] })
      else some (.GST_FLOW_OK,
        { mem := [{ data := bytes ++ m.data.drop bytes.length, spare := m.spare,
                    readonly := m.readonly }] }) := by
  have hlen : m.data.length ≠ 0 := by
    intro h0; exact hne (List.eq_nil_of_length_eq_zero h0)
  have hnlt : ¬ m.data.length < bytes.length := by omega
  cases hro : m.readonly with
  | true =>
    simp [fbd_write, fbd_out_mem, gst_buffer_get_size, hlen, hnlt, gst_buffer_get_all_memory,
      gst_memory_map, MemRef.deref, hro]
  | false =>
    have hw := GstMemory.write_fit m bytes hle
    have hsz : ¬ (bytes = [] ∧ m.data.length - bytes.length = 0) := by
      intro ⟨h1, h2⟩
      rw [h1] at h2
      simp at h2
      exact hne h2
    simp [fbd_write, fbd_out_mem, gst_buffer_get_size, hlen, hnlt, gst_buffer_get_all_memory,
      gst_memory_map, MemRef.deref, hro, memcpy_out, hw, hsz]

/-- The visible bytes and the spare bytes of a resized block are those of the
block. -/
theorem gst_memory_resize_region (m : GstMemory) (size : Nat) :
    (gst_memory_resize m size).data ++ (gst_memory_resize m size).spare = m.data ++ m.spare := by
  simp [gst_memory_resize]

theorem gst_memory_resize_length (m : GstMemory) (size : Nat)
    (h : size ≤ m.data.length + m.spare.length) :
    (gst_memory_resize m size).data.length = size := by
  simp [gst_memory_resize]
  omega

/-- One block with fewer than `bytes.length` visible bytes and room for them:
the block is resized, then written. -/
theorem fbd_write_grow (allocOk : Bool) (m : GstMemory) (bytes : List Nat)
    (hne : m.data ≠ []) (hlt : m.data.length < bytes.length)
    (hcap : bytes.length ≤ m.data.length + m.spare.length) :
    fbd_write allocOk { mem := [m] } bytes =
      if m.readonly then some (.GST_FLOW_ERROR, { mem := [gst_memory_resize m bytes.length] })
      else some (.GST_FLOW_OK,
        { mem := [{ data := bytes, spare := (m.data ++ m.spare).drop bytes.length,
                    readonly := m.readonly }] }) := by
  have hlen : m.data.length ≠ 0 := by
    intro h0; exact hne (List.eq_nil_of_length_eq_zero h0)
  have hrl := gst_memory_resize_length m bytes.length hcap
  have hro' : (gst_memory_resize m bytes.length).readonly = m.readonly := rfl
  cases hro : m.readonly with
  | true =>
    simp [fbd_write, fbd_out_mem, gst_buffer_get_size, hlen, hlt, gst_buffer_set_size, hcap,
      gst_buffer_get_all_memory, gst_memory_map, MemRef.deref, hro', hro]
  | false =>
    have hw := GstMemory.write_fit (gst_memory_resize m bytes.length) bytes (by omega)
    have hd : (gst_memory_resize m bytes.length).data.drop bytes.length = [] := by
      apply List.drop_eq_nil_of_le
      omega
    rw [hd, List.append_nil, hro', hro] at hw
    have hb : bytes ≠ [] := by
      intro h0
      rw [h0] at hlt
      simp at hlt
    simp [fbd_write, fbd_out_mem, gst_buffer_get_size, hlen, hlt, gst_buffer_set_size, hcap,
      gst_buffer_get_all_memory, gst_memory_map, MemRef.deref, hro', hro, memcpy_out, hw, hb]
    simp [gst_memory_resize]

/-- One block with fewer than `bytes.length` visible bytes and no room for
them: the resize is refused; a read-only block gives the error status, a
writable one is written past its end, which leaves the model. -/
theorem fbd_write_overflow (allocOk : Bool) (m : GstMemory) (bytes : List Nat)
    (hne : m.data ≠ []) (hcap : m.data.length + m.spare.length < bytes.length) :
    fbd_write allocOk { mem := [m] } bytes =
      if m.readonly then some (.GST_FLOW_ERROR, { mem := [m] }) else none := by
  have hlen : m.data.length ≠ 0 := by
    intro h0; exact hne (List.eq_nil_of_length_eq_zero h0)
  have hlt : m.data.length < bytes.length := by omega
  have hncap : ¬ bytes.length ≤ m.data.length + m.spare.length := by omega
  cases hro : m.readonly with
  | true =>
    simp [fbd_write, fbd_out_mem, gst_buffer_get_size, hlen, hlt, gst_buffer_set_size, hncap,
      gst_buffer_get_all_memory, gst_memory_map, MemRef.deref, hro]
  | false =>
    have hw := GstMemory.write_none m bytes hcap
    simp [fbd_write, fbd_out_mem, gst_buffer_get_size, hlen, hlt, gst_buffer_set_size, hncap,
      gst_buffer_get_all_memory, gst_memory_map, MemRef.deref, hro, memcpy_out, hw]


theorem fbd_decode_some (finish : Tensors → List Nat) (allocOk : Bool)
    (config : GstTensorsConfig) (input : List GstTensorMemory) (outbuf : GstBuffer)
    (c : Tensors) (hc : fbd_container config input = some c) :
    fbd_decode finish allocOk (some config) (some input) (some outbuf) =
      (fbd_write allocOk outbuf (finish c)).map (fun p => (p.1, some p.2)) := by
  simp only [fbd_decode, hc]
  cases fbd_write allocOk outbuf (finish c) <;> rfl

theorem fbd_decode_none_of_container (finish : Tensors → List Nat) (allocOk : Bool)
    (config : GstTensorsConfig) (input : List GstTensorMemory) (outbuf : GstBuffer)
    (hc : fbd_container config input = none) :
    fbd_decode finish allocOk (some config) (some input) (some outbuf) = none := by
  simp only [fbd_decode, hc]

theorem frame_readable_of_valid (config : GstTensorsConfig) (input : List GstTensorMemory)
    (h : frame_valid config input) : frame_readable config input := by
  obtain ⟨_, _, hlen, hlen', hinfo, hmem, _, _⟩ := h
  intro k hk
  have hk1 : k < config.info.info.length := by omega
  have hk2 : k < input.length := by omega
  unfold tensor_readable
  rw [List.getElem?_eq_getElem hk1, List.getElem?_eq_getElem hk2]
  have h1 := (hinfo _ (List.getElem_mem hk1)).2
  have h2 := hmem _ (List.getElem_mem hk2)
  simp [h1, h2]

theorem Tensor_type.cast_injective (a b : tensor_type)
    (h : Tensor_type.cast a = Tensor_type.cast b) : a = b := by
  cases a <;> cases b <;> first | rfl | cases h

/-- The tensor record of a valid frame at index `k`: nothing is cut off. -/
theorem fbd_container_valid_get (config : GstTensorsConfig) (input : List GstTensorMemory)
    (hv : frame_valid config input) :
    ∃ c, fbd_container config input = some c ∧
      c.num_tensor = config.info.num_tensors ∧
      c.fr = frame_rate.mk config.rate_n config.rate_d ∧
      ∀ k, k < config.info.num_tensors →
        ∃ info mem, config.info.info[k]? = some info ∧ input[k]? = some mem ∧
          mem.data.length = mem.size ∧
          c.tensor[k]? =
            some (CreateTensor info.wire_name (Tensor_type.cast info.type)
              info.dimension mem.data) := by
  obtain ⟨c, hc, hn, hfr, _, hget⟩ :=
    fbd_container_spec config input (frame_readable_of_valid config input hv)
  refine ⟨c, hc, hn, hfr, ?_⟩
  intro k hk
  obtain ⟨info, mem, hi, hm, _, _, ht⟩ := hget k hk
  obtain ⟨_, _, _, _, hinfo, hmem, _, _⟩ := hv
  have h1 := (hinfo info (List.getElem?_mem hi)).2
  have h2 := hmem mem (List.getElem?_mem hm)
  refine ⟨info, mem, hi, hm, h2, ?_⟩
  rw [ht, ← h1, List.take_length, ← h2, List.take_length]

/-! ## The claims -/

/-- Claim C2: when `config`, `input` or `outbuf` is `NULL`, `fbd_decode` returns
`GST_FLOW_ERROR` and the output buffer is in the state it had before the call
(same blocks, hence same size and same bytes). -/
theorem fbd_decode_null_argument (finish : Tensors → List Nat) (allocOk : Bool)
    (config : Option GstTensorsConfig) (input : Option (List GstTensorMemory))
    (outbuf : Option GstBuffer)
    (h : config = none ∨ input = none ∨ outbuf = none) :
    fbd_decode finish allocOk config input outbuf = some (.GST_FLOW_ERROR, outbuf) := by
  rcases h with h | h | h <;> subst h
  · rfl
  · cases config <;> rfl
  · cases config <;> cases input <;> rfl

/-- A call with `config = NULL` and a buffer of 4 bytes. -/
theorem fbd_decode_null_argument_witness :
    ((none : Option GstTensorsConfig) = none ∨ some input_scenario = none ∨
        some outbuf_small = none) ∧
      fbd_decode finish_plain true none (some input_scenario) (some outbuf_small) =
        some (.GST_FLOW_ERROR, some outbuf_small) :=
  ⟨Or.inl rfl, fbd_decode_null_argument finish_plain true none (some input_scenario)
    (some outbuf_small) (Or.inl rfl)⟩

/-- Claim C3, as stated, fails: with a read-only block of 64 bytes of which 4
are visible, and the container of a valid frame, 49 bytes, `fbd_decode`
returns `GST_FLOW_ERROR` because the map fails, but line 142 has already set
the size of the buffer to 49. -/
theorem fbd_decode_error_after_resize :
    frame_valid config_empty_name input_one_byte ∧
    (fbd_decode finish_plain true (some config_empty_name) (some input_one_byte)
        (some outbuf_readonly)).map (fun p => (p.1, p.2.map gst_buffer_get_size)) =
      some (.GST_FLOW_ERROR, some 49) ∧
    gst_buffer_get_size outbuf_readonly = 4 := by
  refine ⟨?_, ?_, ?_⟩
  · unfold frame_valid; decide
  · decide
  · decide

/-- Claim C3, amended: when `fbd_decode` returns `GST_FLOW_ERROR`, either the
output buffer is in the state it had before the call, or the buffer was not
empty and smaller than the container, its block had room for the container,
and the map failed after line 142 had resized it: then the size is the length
of the container, no byte of the block has been written (the storage is the
same) and the old bytes are the first bytes of the buffer. -/
theorem fbd_decode_error_effect (finish : Tensors → List Nat) (allocOk : Bool)
    (config : Option GstTensorsConfig) (input : Option (List GstTensorMemory))
    (outbuf r : Option GstBuffer)
    (h : fbd_decode finish allocOk config input outbuf = some (.GST_FLOW_ERROR, r)) :
    r = outbuf ∨
    ∃ cfg inp c ob ob', config = some cfg ∧ input = some inp ∧
      fbd_container cfg inp = some c ∧ outbuf = some ob ∧ r = some ob' ∧
      gst_buffer_get_size ob ≠ 0 ∧ gst_buffer_get_size ob < (finish c).length ∧
      gst_buffer_get_size ob' = (finish c).length ∧
      gst_buffer_storage ob' = gst_buffer_storage ob ∧
      (gst_buffer_bytes ob').take (gst_buffer_get_size ob) = gst_buffer_bytes ob := by
  match config, input, outbuf with
  | none, _, _ =>
    have hr : some (GstFlowReturn.GST_FLOW_ERROR, _) = some (GstFlowReturn.GST_FLOW_ERROR, r) := h
    simp at hr
    exact Or.inl hr.symm
  | some _, none, _ =>
    have hr : some (GstFlowReturn.GST_FLOW_ERROR, _) = some (GstFlowReturn.GST_FLOW_ERROR, r) := h
    simp at hr
    exact Or.inl hr.symm
  | some _, some _, none =>
    have hr : some (GstFlowReturn.GST_FLOW_ERROR, _) = some (GstFlowReturn.GST_FLOW_ERROR, r) := h
    simp at hr
    exact Or.inl hr.symm
  | some cfg, some inp, some ob =>
    cases hc : fbd_container cfg inp with
    | none => rw [fbd_decode_none_of_container _ _ _ _ _ hc] at h; simp at h
    | some c =>
      rw [fbd_decode_some _ _ _ _ _ c hc] at h
      cases hw : fbd_write allocOk ob (finish c) with
      | none => simp [hw] at h
      | some p =>
        obtain ⟨ret, ob'⟩ := p
        simp [hw] at h
        obtain ⟨hret, hr⟩ := h
        subst hret
        subst hr
        by_cases h0 : gst_buffer_get_size ob = 0
        · rw [fbd_write_of_size_zero _ _ _ h0] at hw
          cases allocOk <;> simp at hw
          exact Or.inl (by rw [hw])
        · obtain ⟨m, hm, hne⟩ := fbd_write_blocks _ _ _ _ _ h0 hw
          obtain ⟨mem⟩ := ob
          simp only at hm
          subst hm
          by_cases hle : (finish c).length ≤ m.data.length
          · rw [fbd_write_reuse _ _ _ hne hle] at hw
            cases hro : m.readonly <;> simp [hro] at hw
            exact Or.inl (by rw [hw])
          · by_cases hcap : (finish c).length ≤ m.data.length + m.spare.length
            · rw [fbd_write_grow _ _ _ hne (by omega) hcap] at hw
              cases hro : m.readonly <;> simp [hro] at hw
              refine Or.inr ⟨cfg, inp, c, _, _, rfl, rfl, hc, rfl, rfl, h0, ?_, ?_, ?_, ?_⟩
              · simp [gst_buffer_get_size]; omega
              · rw [← hw]
                simp [gst_buffer_get_size, gst_memory_resize]
                omega
              · rw [← hw]
                simp [gst_buffer_storage, gst_memory_resize]
              · rw [← hw]
                simp [gst_buffer_bytes, gst_buffer_get_size, gst_memory_resize]
                rw [List.take_take, List.take_append_of_le_length (by omega)]
                simp
                omega
            · rw [fbd_write_overflow _ _ _ hne (by omega)] at hw
              cases hro : m.readonly <;> simp [hro] at hw
              exact Or.inl (by rw [hw])

/-- The error return on the read-only buffer of 4 bytes: the block is resized, not written. -/
theorem fbd_decode_error_effect_witness :
    fbd_decode finish_plain true (some config_empty_name) (some input_one_byte)
        (some outbuf_readonly) = some (.GST_FLOW_ERROR, some outbuf_readonly_resized) ∧
    (some outbuf_readonly_resized = some outbuf_readonly ∨
      ∃ cfg inp c ob ob', some config_empty_name = some cfg ∧ some input_one_byte = some inp ∧
        fbd_container cfg inp = some c ∧ some outbuf_readonly = some ob ∧
        some outbuf_readonly_resized = some ob' ∧
        gst_buffer_get_size ob ≠ 0 ∧ gst_buffer_get_size ob < (finish_plain c).length ∧
        gst_buffer_get_size ob' = (finish_plain c).length ∧
        gst_buffer_storage ob' = gst_buffer_storage ob ∧
        (gst_buffer_bytes ob').take (gst_buffer_get_size ob) = gst_buffer_bytes ob) :=
  ⟨by decide,
   fbd_decode_error_effect finish_plain true (some config_empty_name) (some input_one_byte)
     (some outbuf_readonly) (some outbuf_readonly_resized) (by decide)⟩

/-- Claim C4: for a frame whose reads stay in bounds and an output buffer of
size 0, a call of `fbd_decode` that succeeds has appended one new block whose
allocation is exactly the finished container (its visible bytes are the
container bytes and it has no spare bytes); the size of the buffer is then the
length of the container and its bytes are the container bytes.  The call does
succeed when the allocator does. -/
theorem fbd_decode_zero_size (finish : Tensors → List Nat) (allocOk : Bool)
    (config : GstTensorsConfig) (input : List GstTensorMemory) (outbuf : GstBuffer)
    (hv : frame_readable config input) (h0 : gst_buffer_get_size outbuf = 0) :
    ∃ c, fbd_container config input = some c ∧
      (allocOk = true → ∃ ob',
        fbd_decode finish allocOk (some config) (some input) (some outbuf) =
          some (.GST_FLOW_OK, some ob')) ∧
      ∀ r, fbd_decode finish allocOk (some config) (some input) (some outbuf) =
          some (.GST_FLOW_OK, r) →
        ∃ ob', r = some ob' ∧
          ob'.mem = outbuf.mem ++ [{ data := finish c, spare := [], readonly := false }] ∧
          gst_buffer_get_size ob' = (finish c).length ∧
          gst_buffer_bytes ob' = finish c := by
  obtain ⟨c, hc, _⟩ := fbd_container_spec config input hv
  refine ⟨c, hc, ?_, ?_⟩
  · intro ha
    subst ha
    rw [fbd_decode_some _ _ _ _ _ c hc, fbd_write_of_size_zero _ _ _ h0]
    exact ⟨_, rfl⟩
  · intro r hr
    rw [fbd_decode_some _ _ _ _ _ c hc, fbd_write_of_size_zero _ _ _ h0] at hr
    cases allocOk <;> simp at hr
    refine ⟨_, hr.symm, rfl, ?_, ?_⟩
    · have := h0
      simp only [gst_buffer_get_size] at this ⊢
      simp [this]
    · have := gst_buffer_bytes_of_size_zero outbuf h0
      simp only [gst_buffer_bytes] at this ⊢
      simp [this]

/-- The spec's scenario, encoded into an output buffer without memory. -/
theorem fbd_decode_zero_size_witness :
    (frame_readable config_scenario input_scenario ∧ gst_buffer_get_size outbuf_empty = 0) ∧
    ∃ c, fbd_container config_scenario input_scenario = some c ∧
      (true = true → ∃ ob',
        fbd_decode finish_plain true (some config_scenario) (some input_scenario)
          (some outbuf_empty) = some (.GST_FLOW_OK, some ob')) ∧
      ∀ r, fbd_decode finish_plain true (some config_scenario) (some input_scenario)
          (some outbuf_empty) = some (.GST_FLOW_OK, r) →
        ∃ ob', r = some ob' ∧
          ob'.mem = outbuf_empty.mem ++
            [{ data := finish_plain c, spare := [], readonly := false }] ∧
          gst_buffer_get_size ob' = (finish_plain c).length ∧
          gst_buffer_bytes ob' = finish_plain c :=
  ⟨⟨by unfold frame_readable; decide, by decide⟩,
   fbd_decode_zero_size finish_plain true config_scenario input_scenario outbuf_empty
     (by unfold frame_readable; decide) (by decide)⟩

/-- Claim C5: for a frame whose reads stay in bounds and an output buffer whose
size is not 0 and at least the length `L` of the finished container, a call of
`fbd_decode` that succeeds leaves the size of the buffer as it was, keeps the
blocks and the length of their allocations (nothing is allocated or appended),
and the bytes of the buffer are the container bytes followed by the old bytes
from offset `L` on.  The call does succeed when the buffer is one writable
block. -/
theorem fbd_decode_reuse (finish : Tensors → List Nat) (allocOk : Bool)
    (config : GstTensorsConfig) (input : List GstTensorMemory) (outbuf : GstBuffer)
    (hv : frame_readable config input) (hne : gst_buffer_get_size outbuf ≠ 0) :
    ∃ c, fbd_container config input = some c ∧
      ((finish c).length ≤ gst_buffer_get_size outbuf →
        (∀ m, outbuf.mem = [m] → m.readonly = false → ∃ ob',
          fbd_decode finish allocOk (some config) (some input) (some outbuf) =
            some (.GST_FLOW_OK, some ob')) ∧
        ∀ r, fbd_decode finish allocOk (some config) (some input) (some outbuf) =
            some (.GST_FLOW_OK, r) →
          ∃ ob', r = some ob' ∧
            gst_buffer_get_size ob' = gst_buffer_get_size outbuf ∧
            ob'.mem.length = outbuf.mem.length ∧
            (gst_buffer_storage ob').map List.length =
              (gst_buffer_storage outbuf).map List.length ∧
            gst_buffer_bytes ob' =
              finish c ++ (gst_buffer_bytes outbuf).drop (finish c).length) := by
  obtain ⟨c, hc, _⟩ := fbd_container_spec config input hv
  refine ⟨c, hc, ?_⟩
  intro hle
  constructor
  · intro m hm hro
    obtain ⟨mem⟩ := outbuf
    simp only at hm
    subst hm
    have hd : m.data ≠ [] := by
      intro hd
      simp [gst_buffer_get_size, hd] at hne
    have hle' : (finish c).length ≤ m.data.length := by
      simpa [gst_buffer_get_size] using hle
    rw [fbd_decode_some _ _ _ _ _ c hc, fbd_write_reuse _ _ _ hd hle']
    simp [hro]
  · intro r hr
    rw [fbd_decode_some _ _ _ _ _ c hc] at hr
    cases hw : fbd_write allocOk outbuf (finish c) with
    | none => simp [hw] at hr
    | some p =>
      obtain ⟨ret, ob'⟩ := p
      simp [hw] at hr
      obtain ⟨hret, hr⟩ := hr
      subst hret
      obtain ⟨m, hm, hd⟩ := fbd_write_blocks _ _ _ _ _ hne hw
      obtain ⟨mem⟩ := outbuf
      simp only at hm
      subst hm
      have hle' : (finish c).length ≤ m.data.length := by
        simpa [gst_buffer_get_size] using hle
      rw [fbd_write_reuse _ _ _ hd hle'] at hw
      cases hro : m.readonly <;> simp [hro] at hw
      refine ⟨ob', hr.symm, ?_, ?_, ?_, ?_⟩
      · rw [← hw]
        simp [gst_buffer_get_size]
        omega
      · rw [← hw]
        rfl
      · rw [← hw]
        simp [gst_buffer_storage]
        omega
      · rw [← hw]
        simp [gst_buffer_bytes]

/-- A container of 49 bytes placed in a writable buffer of 62 bytes. -/
theorem fbd_decode_reuse_witness :
    (frame_readable config_empty_name input_one_byte ∧ gst_buffer_get_size outbuf_large ≠ 0) ∧
    ∃ c, fbd_container config_empty_name input_one_byte = some c ∧
      ((finish_plain c).length ≤ gst_buffer_get_size outbuf_large →
        (∀ m, outbuf_large.mem = [m] → m.readonly = false → ∃ ob',
          fbd_decode finish_plain true (some config_empty_name) (some input_one_byte)
            (some outbuf_large) = some (.GST_FLOW_OK, some ob')) ∧
        ∀ r, fbd_decode finish_plain true (some config_empty_name) (some input_one_byte)
            (some outbuf_large) = some (.GST_FLOW_OK, r) →
          ∃ ob', r = some ob' ∧
            gst_buffer_get_size ob' = gst_buffer_get_size outbuf_large ∧
            ob'.mem.length = outbuf_large.mem.length ∧
            (gst_buffer_storage ob').map List.length =
              (gst_buffer_storage outbuf_large).map List.length ∧
            gst_buffer_bytes ob' =
              finish_plain c ++ (gst_buffer_bytes outbuf_large).drop (finish_plain c).length) :=
  ⟨⟨by unfold frame_readable; decide, by decide⟩,
   fbd_decode_reuse finish_plain true config_empty_name input_one_byte outbuf_large
     (by unfold frame_readable; decide) (by decide)⟩

/-- The undersized buffer whose block has room: for a frame whose reads stay
in bounds and an output buffer whose size is not 0 and smaller than the length
`L` of the finished container, a call of `fbd_decode` that returns
`GST_FLOW_OK` in the model leaves the buffer with size `L` and its first `L`
bytes are the container bytes; the call does so when the buffer is one
writable block whose allocation has room for `L` bytes.  Without room the
statement says nothing; see `fbd_decode_grow_overflow`. -/
theorem fbd_decode_grow (finish : Tensors → List Nat) (allocOk : Bool)
    (config : GstTensorsConfig) (input : List GstTensorMemory) (outbuf : GstBuffer)
    (hv : frame_readable config input) (hne : gst_buffer_get_size outbuf ≠ 0) :
    ∃ c, fbd_container config input = some c ∧
      (gst_buffer_get_size outbuf < (finish c).length →
        (∀ m, outbuf.mem = [m] → m.readonly = false →
          (finish c).length ≤ m.data.length + m.spare.length → ∃ ob',
          fbd_decode finish allocOk (some config) (some input) (some outbuf) =
            some (.GST_FLOW_OK, some ob')) ∧
        ∀ r, fbd_decode finish allocOk (some config) (some input) (some outbuf) =
            some (.GST_FLOW_OK, r) →
          ∃ ob', r = some ob' ∧
            (finish c).length ≤ gst_buffer_get_size ob' ∧
            gst_buffer_get_size ob' = (finish c).length ∧
            (gst_buffer_bytes ob').take (finish c).length = finish c) := by
  obtain ⟨c, hc, _⟩ := fbd_container_spec config input hv
  refine ⟨c, hc, ?_⟩
  intro hlt
  constructor
  · intro m hm hro hcap
    obtain ⟨mem⟩ := outbuf
    simp only at hm
    subst hm
    have hd : m.data ≠ [] := by
      intro hd
      simp [gst_buffer_get_size, hd] at hne
    have hlt' : m.data.length < (finish c).length := by
      simpa [gst_buffer_get_size] using hlt
    rw [fbd_decode_some _ _ _ _ _ c hc, fbd_write_grow _ _ _ hd hlt' hcap]
    simp [hro]
  · intro r hr
    rw [fbd_decode_some _ _ _ _ _ c hc] at hr
    cases hw : fbd_write allocOk outbuf (finish c) with
    | none => simp [hw] at hr
    | some p =>
      obtain ⟨ret, ob'⟩ := p
      simp [hw] at hr
      obtain ⟨hret, hr⟩ := hr
      subst hret
      obtain ⟨m, hm, hd⟩ := fbd_write_blocks _ _ _ _ _ hne hw
      obtain ⟨mem⟩ := outbuf
      simp only at hm
      subst hm
      have hlt' : m.data.length < (finish c).length := by
        simpa [gst_buffer_get_size] using hlt
      by_cases hcap : (finish c).length ≤ m.data.length + m.spare.length
      · rw [fbd_write_grow _ _ _ hd hlt' hcap] at hw
        cases hro : m.readonly <;> simp [hro] at hw
        refine ⟨ob', hr.symm, ?_, ?_, ?_⟩
        · rw [← hw]
          simp [gst_buffer_get_size]
        · rw [← hw]
          simp [gst_buffer_get_size]
        · rw [← hw]
          simp [gst_buffer_bytes]
      · rw [fbd_write_overflow _ _ _ hd (by omega)] at hw
        cases hro : m.readonly <;> simp [hro] at hw

/-- A container of 49 bytes placed in a writable buffer of 4 bytes with room for 64. -/
theorem fbd_decode_grow_witness :
    (frame_readable config_empty_name input_one_byte ∧ gst_buffer_get_size outbuf_small ≠ 0) ∧
    ∃ c, fbd_container config_empty_name input_one_byte = some c ∧
      (gst_buffer_get_size outbuf_small < (finish_plain c).length →
        (∀ m, outbuf_small.mem = [m] → m.readonly = false →
          (finish_plain c).length ≤ m.data.length + m.spare.length → ∃ ob',
          fbd_decode finish_plain true (some config_empty_name) (some input_one_byte)
            (some outbuf_small) = some (.GST_FLOW_OK, some ob')) ∧
        ∀ r, fbd_decode finish_plain true (some config_empty_name) (some input_one_byte)
            (some outbuf_small) = some (.GST_FLOW_OK, r) →
          ∃ ob', r = some ob' ∧
            (finish_plain c).length ≤ gst_buffer_get_size ob' ∧
            gst_buffer_get_size ob' = (finish_plain c).length ∧
            (gst_buffer_bytes ob').take (finish_plain c).length = finish_plain c) :=
  ⟨⟨by unfold frame_readable; decide, by decide⟩,
   fbd_decode_grow finish_plain true config_empty_name input_one_byte outbuf_small
     (by unfold frame_readable; decide) (by decide)⟩

/-- Claim C6 fails on the code: a valid frame whose container has 49 bytes,
and an output buffer of 4 bytes in a writable block of exactly 4 bytes.  The
size is not 0 and below 49, so line 142 calls `gst_buffer_set_size`; the block
has no room, the call is refused and its outcome is not looked at: after
lines 138-145 the buffer is as it was, 4 bytes.  The map of line 147
succeeds, and line 153 copies 49 bytes into the block of 4: a write past the
end of the block, for which the model has no result, and not the buffer of at
least 49 bytes holding the container that the claim promises. -/
theorem fbd_decode_grow_overflow :
    frame_valid config_empty_name input_one_byte ∧
    (fbd_container config_empty_name input_one_byte).map
        (fun c => (finish_plain c).length) = some 49 ∧
    gst_buffer_get_size outbuf_tight = 4 ∧
    fbd_out_mem true outbuf_tight 49 = some (outbuf_tight, MemRef.attached) ∧
    gst_memory_map outbuf_tight MemRef.attached = true ∧
    (fbd_container config_empty_name input_one_byte).map
        (fun c => memcpy_out outbuf_tight MemRef.attached (finish_plain c)) = some none ∧
    fbd_decode finish_plain true (some config_empty_name) (some input_one_byte)
        (some outbuf_tight) = none := by
  refine ⟨?_, ?_, ?_, ?_, ?_, ?_, ?_⟩
  · unfold frame_valid; decide
  · decide
  · decide
  · decide
  · decide
  · decide
  · decide

/-- Claim C1, as stated, fails: the frame whose tensor has no name (`NULL`) and
the frame whose tensor has the empty name are both valid and differ, and
`fbd_decode` builds the same container and the same output bytes from them;
no decoder can tell the two apart. -/
theorem fbd_decode_name_collision :
    frame_valid config_absent_name input_one_byte ∧
    frame_valid config_empty_name input_one_byte ∧
    config_absent_name ≠ config_empty_name ∧
    fbd_container config_absent_name input_one_byte =
      fbd_container config_empty_name input_one_byte ∧
    fbd_decode finish_plain true (some config_absent_name) (some input_one_byte)
        (some outbuf_empty) =
      fbd_decode finish_plain true (some config_empty_name) (some input_one_byte)
        (some outbuf_empty) := by
  refine ⟨?_, ?_, ?_, ?_, ?_⟩
  · unfold frame_valid; decide
  · unfold frame_valid; decide
  · decide
  · decide
  · decide

/-- Claim C1, amended: for valid frames with matching buffers the container
that `fbd_decode` builds exists and determines the tensor count, the frame
rate, the buffers (count, order, sizes and every byte) and, tensor by tensor
in order, the type, the dimension vector and the name as written on the wire,
where an absent name and the empty name are the same.  The same holds for the
bytes that `fbd_decode` puts in an empty output buffer, whenever the byte
layout `finish` is injective. -/
theorem fbd_decode_injective (F F' : GstTensorsConfig) (B B' : List GstTensorMemory)
    (hv : frame_valid F B) (hv' : frame_valid F' B') :
    (∃ c, fbd_container F B = some c) ∧
    (fbd_container F B = fbd_container F' B' →
      F.info.num_tensors = F'.info.num_tensors ∧
      F.rate_n = F'.rate_n ∧ F.rate_d = F'.rate_d ∧
      F.info.info.map (fun t => (t.wire_name, t.type, t.dimension)) =
        F'.info.info.map (fun t => (t.wire_name, t.type, t.dimension)) ∧
      B = B') ∧
    (∀ finish : Tensors → List Nat, Function.Injective finish →
      fbd_decode finish true (some F) (some B) (some outbuf_empty) =
        fbd_decode finish true (some F') (some B') (some outbuf_empty) →
      fbd_container F B = fbd_container F' B') := by
  obtain ⟨c, hc, hn, hfr, hget⟩ := fbd_container_valid_get F B hv
  obtain ⟨c', hc', hn', hfr', hget'⟩ := fbd_container_valid_get F' B' hv'
  refine ⟨⟨c, hc⟩, ?_, ?_⟩
  · intro heq
    rw [hc, hc'] at heq
    have hcc : c = c' := Option.some.inj heq
    subst hcc
    have hnn : F.info.num_tensors = F'.info.num_tensors := by rw [← hn, ← hn']
    have hrate : frame_rate.mk F.rate_n F.rate_d = frame_rate.mk F'.rate_n F'.rate_d := by
      rw [← hfr, ← hfr']
    obtain ⟨_, _, hlen, hblen, _, _, _, _⟩ := hv
    obtain ⟨_, _, hlen', hblen', _, _, _, _⟩ := hv'
    refine ⟨hnn, (frame_rate.mk.inj hrate).1, (frame_rate.mk.inj hrate).2, ?_, ?_⟩
    · apply List.ext_getElem?
      intro k
      by_cases hk : k < F.info.num_tensors
      · obtain ⟨info, mem, hi, _, _, ht⟩ := hget k hk
        obtain ⟨info', mem', hi', _, _, ht'⟩ := hget' k (hnn ▸ hk)
        rw [ht] at ht'
        have hT := Option.some.inj ht'
        simp only [CreateTensor, Tensor.mk.injEq] at hT
        obtain ⟨h1, h2, h3, _⟩ := hT
        simp only [List.getElem?_map, hi, hi', Option.map_some']
        rw [h1, Tensor_type.cast_injective _ _ h2, h3]
      · have h1 : F.info.info.length ≤ k := by omega
        have h2 : F'.info.info.length ≤ k := by omega
        simp [List.getElem?_eq_none, h1, h2]
    · apply List.ext_getElem?
      intro k
      by_cases hk : k < F.info.num_tensors
      · obtain ⟨info, mem, _, hm, hs, ht⟩ := hget k hk
        obtain ⟨info', mem', _, hm', hs', ht'⟩ := hget' k (hnn ▸ hk)
        rw [ht] at ht'
        have hT := Option.some.inj ht'
        simp only [CreateTensor, Tensor.mk.injEq] at hT
        obtain ⟨_, _, _, h4⟩ := hT
        rw [hm, hm']
        congr 1
        obtain ⟨d, s⟩ := mem
        obtain ⟨d', s'⟩ := mem'
        simp only at h4 hs hs'
        subst h4
        rw [← hs, ← hs']
      · have h1 : B.length ≤ k := by omega
        have h2 : B'.length ≤ k := by omega
        simp [List.getElem?_eq_none, h1, h2]
  · intro finish hinj heq
    have h0 : gst_buffer_get_size outbuf_empty = 0 := rfl
    rw [fbd_decode_some _ _ _ _ _ c hc, fbd_decode_some _ _ _ _ _ c' hc',
      fbd_write_of_size_zero _ _ _ h0, fbd_write_of_size_zero _ _ _ h0] at heq
    simp at heq
    rw [hc, hc', hinj heq]

/-- The spec's scenario is a valid frame with matching buffers. -/
theorem fbd_decode_injective_witness :
    (frame_valid config_scenario input_scenario ∧
      frame_valid config_scenario input_scenario) ∧
    ((∃ c, fbd_container config_scenario input_scenario = some c) ∧
    (fbd_container config_scenario input_scenario =
        fbd_container config_scenario input_scenario →
      config_scenario.info.num_tensors = config_scenario.info.num_tensors ∧
      config_scenario.rate_n = config_scenario.rate_n ∧
      config_scenario.rate_d = config_scenario.rate_d ∧
      config_scenario.info.info.map (fun t => (t.wire_name, t.type, t.dimension)) =
        config_scenario.info.info.map (fun t => (t.wire_name, t.type, t.dimension)) ∧
      input_scenario = input_scenario) ∧
    (∀ finish : Tensors → List Nat, Function.Injective finish →
      fbd_decode finish true (some config_scenario) (some input_scenario)
          (some outbuf_empty) =
        fbd_decode finish true (some config_scenario) (some input_scenario)
          (some outbuf_empty) →
      fbd_container config_scenario input_scenario =
        fbd_container config_scenario input_scenario)) :=
  ⟨⟨by unfold frame_valid; decide, by unfold frame_valid; decide⟩,
   fbd_decode_injective config_scenario config_scenario input_scenario input_scenario
     (by unfold frame_valid; decide) (by unfold frame_valid; decide)⟩

/-- Claim C7: for a frame whose reads stay in bounds, the container holds one
tensor record for each index below `num_tensors`, in the order of the
descriptors, and record `i` carries the type tag of descriptor `i` and a
payload of exactly `input[i].size` bytes that are the bytes of
`input[i].data`, one by one. -/
theorem fbd_container_payload (config : GstTensorsConfig) (input : List GstTensorMemory)
    (hv : frame_readable config input) :
    ∃ c, fbd_container config input = some c ∧
      c.tensor.length = config.info.num_tensors ∧
      ∀ i, i < config.info.num_tensors →
        ∃ info mem t, config.info.info[i]? = some info ∧ input[i]? = some mem ∧
          c.tensor[i]? = some t ∧
          t.type = Tensor_type.cast info.type ∧
          t.data.length = mem.size ∧
          ∀ j, j < mem.size → t.data[j]? = mem.data[j]? := by
  obtain ⟨c, hc, _, _, hlen, hget⟩ := fbd_container_spec config input hv
  refine ⟨c, hc, hlen, ?_⟩
  intro i hi
  obtain ⟨info, mem, hinfo, hmem, _, hs, ht⟩ := hget i hi
  refine ⟨info, mem, _, hinfo, hmem, ht, rfl, ?_, ?_⟩
  · simp only [CreateTensor, List.length_take]
    omega
  · intro j hj
    simp only [CreateTensor]
    rw [List.getElem?_take_of_lt hj]

/-- The records of the spec's scenario. -/
theorem fbd_container_payload_witness :
    frame_readable config_scenario input_scenario ∧
    ∃ c, fbd_container config_scenario input_scenario = some c ∧
      c.tensor.length = config_scenario.info.num_tensors ∧
      ∀ i, i < config_scenario.info.num_tensors →
        ∃ info mem t, config_scenario.info.info[i]? = some info ∧
          input_scenario[i]? = some mem ∧
          c.tensor[i]? = some t ∧
          t.type = Tensor_type.cast info.type ∧
          t.data.length = mem.size ∧
          ∀ j, j < mem.size → t.data[j]? = mem.data[j]? :=
  ⟨by unfold frame_readable; decide,
   fbd_container_payload config_scenario input_scenario (by unfold frame_readable; decide)⟩

/-- The dimension vector is copied: for a frame whose reads stay in bounds, the
dimension vector of every tensor record has exactly `NNS_TENSOR_RANK_LIMIT`
entries and entry `k` is slot `k` of the descriptor, in the same order. -/
theorem fbd_container_dimension (config : GstTensorsConfig) (input : List GstTensorMemory)
    (hv : frame_readable config input) :
    ∃ c, fbd_container config input = some c ∧
      ∀ i, i < config.info.num_tensors →
        ∃ info t, config.info.info[i]? = some info ∧ c.tensor[i]? = some t ∧
          t.dimension.length = NNS_TENSOR_RANK_LIMIT ∧
          (∀ k, k < NNS_TENSOR_RANK_LIMIT → t.dimension[k]? = info.dimension[k]?) ∧
          (∀ k, k < NNS_TENSOR_RANK_LIMIT →
            (t.dimension[k]? = some 1 ↔ info.dimension[k]? = some 1)) := by
  obtain ⟨c, hc, _, _, _, hget⟩ := fbd_container_spec config input hv
  refine ⟨c, hc, ?_⟩
  intro i hi
  obtain ⟨info, mem, hinfo, _, hd, _, ht⟩ := hget i hi
  have hk : ∀ k, k < NNS_TENSOR_RANK_LIMIT →
      (info.dimension.take NNS_TENSOR_RANK_LIMIT)[k]? = info.dimension[k]? := by
    intro k hk
    rw [List.getElem?_take_of_lt hk]
  refine ⟨info, _, hinfo, ht, ?_, ?_, ?_⟩
  · simp only [CreateTensor, List.length_take]
    omega
  · intro k hlt
    exact hk k hlt
  · intro k hlt
    simp only [CreateTensor]
    rw [hk k hlt]

/-- Claim C8: for every tensor `fbd_decode` writes, whose descriptor has the
declared rank `rank` and meets the invariant of the data model (positive
extents, every slot beyond the rank equal to 1), the dimension vector in the
container has exactly `NNS_TENSOR_RANK_LIMIT` (4) entries, the entries below
the rank are the descriptor's dimensions in the same order, and every slot
beyond the rank is 1; no slot is 0 or missing. -/
theorem fbd_container_dimension_padded (config : GstTensorsConfig)
    (input : List GstTensorMemory) (i rank : Nat) (info : GstTensorInfo)
    (hv : frame_readable config input) (hi : i < config.info.num_tensors)
    (hinfo : config.info.info[i]? = some info)
    (hd : tensor_dim_declared rank info.dimension) :
    ∃ c t, fbd_container config input = some c ∧ c.tensor[i]? = some t ∧
      t.dimension.length = NNS_TENSOR_RANK_LIMIT ∧
      (∀ k, k < rank → t.dimension[k]? = info.dimension[k]?) ∧
      (∀ k, rank ≤ k → k < NNS_TENSOR_RANK_LIMIT → t.dimension[k]? = some 1) ∧
      (∀ k, k < NNS_TENSOR_RANK_LIMIT →
        t.dimension[k]? ≠ some 0 ∧ t.dimension[k]? ≠ none) := by
  obtain ⟨c, hc, hall⟩ := fbd_container_dimension config input hv
  obtain ⟨info', t, hinfo', ht, hlen, hcopy, _⟩ := hall i hi
  rw [hinfo] at hinfo'
  have hii : info = info' := Option.some.inj hinfo'
  subst hii
  obtain ⟨_, hr, hdl, hpos, hpad⟩ := hd
  refine ⟨c, t, hc, ht, hlen, ?_, ?_, ?_⟩
  · intro k hk
    exact hcopy k (by omega)
  · intro k hrk hk
    rw [hcopy k hk]
    exact hpad k hk hrk
  · intro k hk
    rw [hcopy k hk]
    have hk' : k < info.dimension.length := by omega
    rw [List.getElem?_eq_getElem hk']
    have := (hpos _ (List.getElem_mem hk')).1
    constructor
    · intro h0
      have h0' := Option.some.inj h0
      omega
    · simp

/-- The first tensor of the spec's scenario: rank 2, dimensions [3, 2, 1, 1]. -/
theorem fbd_container_dimension_padded_witness :
    (frame_readable config_scenario input_scenario ∧
      0 < config_scenario.info.num_tensors ∧
      config_scenario.info.info[0]? =
        some { name := some "input", type := .uint8, dimension := [3, 2, 1, 1] } ∧
      tensor_dim_declared 2 [3, 2, 1, 1]) ∧
    ∃ c t, fbd_container config_scenario input_scenario = some c ∧ c.tensor[0]? = some t ∧
      t.dimension.length = NNS_TENSOR_RANK_LIMIT ∧
      (∀ k, k < 2 → t.dimension[k]? = [3, 2, 1, 1][k]?) ∧
      (∀ k, 2 ≤ k → k < NNS_TENSOR_RANK_LIMIT → t.dimension[k]? = some 1) ∧
      (∀ k, k < NNS_TENSOR_RANK_LIMIT →
        t.dimension[k]? ≠ some 0 ∧ t.dimension[k]? ≠ none) :=
  ⟨⟨by unfold frame_readable; decide, by decide, by decide,
      by unfold tensor_dim_declared; decide⟩,
   fbd_container_dimension_padded config_scenario input_scenario 0 2
     { name := some "input", type := .uint8, dimension := [3, 2, 1, 1] }
     (by unfold frame_readable; decide) (by decide) (by decide)
     (by unfold tensor_dim_declared; decide)⟩

/-- Claim C9: for a frame whose reads stay in bounds, whatever the names are,
the container exists and the name of tensor record `i` is the empty string
when the name of descriptor `i` is absent (`NULL`) and the descriptor's name
otherwise; and `fbd_decode` then returns `GST_FLOW_OK` for an output buffer of
size 0, so that no absent or empty name makes the encode fail. -/
theorem fbd_container_name (config : GstTensorsConfig) (input : List GstTensorMemory)
    (hv : frame_readable config input) :
    ∃ c, fbd_container config input = some c ∧
      (∀ i, i < config.info.num_tensors →
        ∃ info t, config.info.info[i]? = some info ∧ c.tensor[i]? = some t ∧
          (info.name = none → t.name = "") ∧
          (∀ s, info.name = some s → t.name = s)) ∧
      (∀ (finish : Tensors → List Nat) (outbuf : GstBuffer),
        gst_buffer_get_size outbuf = 0 → ∃ ob',
          fbd_decode finish true (some config) (some input) (some outbuf) =
            some (.GST_FLOW_OK, some ob')) := by
  obtain ⟨c, hc, _, _, _, hget⟩ := fbd_container_spec config input hv
  refine ⟨c, hc, ?_, ?_⟩
  · intro i hi
    obtain ⟨info, mem, hinfo, _, _, _, ht⟩ := hget i hi
    refine ⟨info, _, hinfo, ht, ?_, ?_⟩
    · intro hn
      simp [CreateTensor, GstTensorInfo.wire_name, hn]
    · intro s hn
      simp [CreateTensor, GstTensorInfo.wire_name, hn]
  · intro finish outbuf h0
    rw [fbd_decode_some _ _ _ _ _ c hc, fbd_write_of_size_zero _ _ _ h0]
    exact ⟨_, rfl⟩

/-- The frame whose tensor has no name. -/
theorem fbd_container_name_witness :
    frame_readable config_absent_name input_one_byte ∧
    ∃ c, fbd_container config_absent_name input_one_byte = some c ∧
      (∀ i, i < config_absent_name.info.num_tensors →
        ∃ info t, config_absent_name.info.info[i]? = some info ∧ c.tensor[i]? = some t ∧
          (info.name = none → t.name = "") ∧
          (∀ s, info.name = some s → t.name = s)) ∧
      (∀ (finish : Tensors → List Nat) (outbuf : GstBuffer),
        gst_buffer_get_size outbuf = 0 → ∃ ob',
          fbd_decode finish true (some config_absent_name) (some input_one_byte)
            (some outbuf) = some (.GST_FLOW_OK, some ob')) :=
  ⟨by unfold frame_readable; decide,
   fbd_container_name config_absent_name input_one_byte
     (by unfold frame_readable; decide)⟩

/-- Claim C10: for a frame whose reads stay in bounds, the root table of the
container has one frame-rate record, whose numerator and denominator are
`rate_n` and `rate_d` of the frame, and a tensor count that is `num_tensors`
and is also the number of tensor records written; when the frame rate has a
numerator of at least 0 and a denominator above 0, the denominator in the
container is not 0. -/
theorem fbd_container_frame (config : GstTensorsConfig) (input : List GstTensorMemory)
    (hv : frame_readable config input) :
    ∃ c, fbd_container config input = some c ∧
      c.fr.rate_n = config.rate_n ∧ c.fr.rate_d = config.rate_d ∧
      c.num_tensor = config.info.num_tensors ∧
      c.num_tensor = c.tensor.length ∧
      (0 ≤ config.rate_n → 0 < config.rate_d → c.fr.rate_d ≠ 0) := by
  obtain ⟨c, hc, hn, hfr, hlen, _⟩ := fbd_container_spec config input hv
  refine ⟨c, hc, ?_, ?_, hn, ?_, ?_⟩
  · rw [hfr]
  · rw [hfr]
  · rw [hn, hlen]
  · intro _ hd
    rw [hfr]
    exact Int.ne_of_gt hd

/-- The root table of the spec's scenario. -/
theorem fbd_container_frame_witness :
    frame_readable config_scenario input_scenario ∧
    ∃ c, fbd_container config_scenario input_scenario = some c ∧
      c.fr.rate_n = config_scenario.rate_n ∧ c.fr.rate_d = config_scenario.rate_d ∧
      c.num_tensor = config_scenario.info.num_tensors ∧
      c.num_tensor = c.tensor.length ∧
      (0 ≤ config_scenario.rate_n → 0 < config_scenario.rate_d → c.fr.rate_d ≠ 0) :=
  ⟨by unfold frame_readable; decide,
   fbd_container_frame config_scenario input_scenario (by unfold frame_readable; decide)⟩

end flatbuf
end nnstreamer
